import Mathlib

/-
Verification development for `mltsp/datasets/asas_training.py`.

The module has two operations:
  * `download_asas_training` (the "Fetcher"): downloads a header file and a
    data archive, extracts the archive members, parses each member into a
    (times, measurements, errors) triple, parses the header file into
    classes/metadata maps, deletes the extracted member files, serializes the
    resulting dataset to a cache file and returns it;
  * `fetch_asas_training` (the "Cache Loader"): tries to deserialize the
    dataset from a fixed cache path and, on `ValueError`/`IOError`, falls back
    to `download_asas_training`.

The embedding is a shallow state-passing one: the filesystem is an
association list from paths to file contents, exceptions are `Except`, and
every externally observable step is recorded in an event trace.  The external
collaborators (`dsutil.download_file`, `dsutil.download_and_extract_archives`,
`featurize_tools.parse_ts_data`, `featurize_tools.parse_headerfile`,
`util.remove_files`, `joblib.load`/`joblib.dump`, `pd.read_csv`) are not part
of the source file; they are modelled from the specification, with their
behaviour on unknown inputs supplied by oracle fields of a `World`.
-/

namespace AsasTraining

/-- Python exception classes that can reach this module. -/
inductive PyErr where
  | valueError
  | ioError
  | networkError
  | checksumMismatch
  | parseError
  | otherError
deriving DecidableEq, Repr

/-- The in-memory dataset dictionary built by `download_asas_training`. -/
structure Dataset where
  times : List (List Int)
  measurements : List (List Int)
  errors : List (List Int)
  classes : List (String × String)
  metadata : List (String × String)
  archive : String
  header : String
deriving DecidableEq, Repr

/-- Equality of `Except` results is decidable; used to evaluate the model on
concrete inputs. -/
def exceptDecEqAux {ε α : Type} [DecidableEq ε] [DecidableEq α] :
    (a b : Except ε α) → Decidable (a = b)
  | .error e1, .error e2 =>
    if h : e1 = e2 then isTrue (h ▸ rfl) else isFalse (fun hc => h (by cases hc; rfl))
  | .ok x, .ok y =>
    if h : x = y then isTrue (h ▸ rfl) else isFalse (fun hc => h (by cases hc; rfl))
  | .error _, .ok _ => isFalse (fun hc => by cases hc)
  | .ok _, .error _ => isFalse (fun hc => by cases hc)

instance {ε α : Type} [DecidableEq ε] [DecidableEq α] : DecidableEq (Except ε α) :=
  exceptDecEqAux

/-- Content of a file on disk: raw bytes, a tar.gz archive holding named
members, a joblib-pickled dataset, or pickled content whose deserialization
raises the stored exception class. -/
inductive FileData where
  | raw (bytes : List Nat)
  | archiveBlob (members : List (String × List Nat))
  | pickled (d : Dataset)
  | badPickle (e : PyErr)
deriving DecidableEq, Repr

/-- The filesystem: an association list from paths to contents; the first
entry for a path is its current content. -/
abbrev FS := List (String × FileData)

def fsLookup (fs : FS) (p : String) : Option FileData :=
  match fs with
  | [] => none
  | (q, d) :: rest => if q = p then some d else fsLookup rest p

def fsWrite (fs : FS) (p : String) (d : FileData) : FS :=
  (p, d) :: fs

/-- Externally observable steps, in execution order. -/
inductive Event where
  | downloadFile (name : String)
  | downloadArchive (name : String)
  | parseTS (path : String)
  | readCSV (path : String)
  | removeFiles (paths : List String)
  | parseHeader (path : String) (members : List String)
  | dumpCache (path : String)
  | loadCache (path : String)
deriving DecidableEq, Repr

/-- Whether an event is a network access. -/
def Event.isNetwork : Event → Bool
  | .downloadFile _ => true
  | .downloadArchive _ => true
  | _ => false

/-- Whether an event writes to or deletes from the filesystem. -/
def Event.isWrite : Event → Bool
  | .downloadFile _ => true
  | .downloadArchive _ => true
  | .removeFiles _ => true
  | .dumpCache _ => true
  | _ => false

/-- Oracles for the behaviour of the external collaborators: what the remote
server serves, whether the archive checksum verifies, and how the external
parsers behave on given file bytes.  `dataPath` models `cfg.DATA_PATH`. -/
structure World where
  dataPath : String
  remoteFile : String → Option (List Nat)
  archiveContents : String → Option (List (String × List Nat))
  archiveChecksumOk : String → Bool
  parseTS : List Nat → Except PyErr (List Int × List Int × List Int)
  csvParse : List Nat → Except PyErr (List (List String))
  headerParseErr : List Nat → Option PyErr
  classOf : String → String
  metaOf : String → String

def BASE_URL : String := "https://github.com/mltsp/mltsp-data/raw/master/asas_training/"

def ARCHIVE_NAME : String := "asas_training_set.tar.gz"

def HEADER_FILE : String := "asas_training_set_classes_with_metadata.dat"

def CACHE_NAME : String := "asas_training_set.pkl"

def MD5SUMS : List (String × String) :=
  [("asas_training_set.tar.gz", "02c65e90d23999ec1c59ad56a78de477")]

/-- `os.path.join` for the single-component joins used by this module. -/
def pathJoin (a b : String) : String := a ++ "/" ++ b

/-- `os.path.basename`: the part after the last slash. -/
def basename (p : String) : String :=
  String.mk (p.data.foldl (fun acc c => if c = '/' then [] else acc ++ [c]) [])

/-- Modelled from the spec: `download_file(dir, base_url, filename) -> path`
ensures the named file exists locally under `dir`, downloading it from the
remote base location if absent, and returns its local path. -/
def download_file (w : World) (fs : FS) (dir base filename : String) :
    Except PyErr String × FS × List Event :=
  let p := pathJoin dir filename
  match fsLookup fs p with
  | some _ => (.ok p, fs, [])
  | none =>
    match w.remoteFile filename with
    | none => (.error .networkError, fs, [.downloadFile filename])
    | some b => (.ok p, fsWrite fs p (.raw b), [.downloadFile filename])

/-- Modelled from the spec: the download-and-verify part of
`download_and_extract_archives`: ensure the archive exists locally
(downloading if absent) and fail on a checksum mismatch of the download. -/
def ensure_archive (w : World) (fs : FS) (dir name : String) :
    Except PyErr Unit × FS × List Event :=
  let apath := pathJoin dir name
  match fsLookup fs apath with
  | some _ => (.ok (), fs, [])
  | none =>
    match w.archiveContents name with
    | none => (.error .networkError, fs, [.downloadArchive name])
    | some mems =>
      if w.archiveChecksumOk name then
        (.ok (), fsWrite fs apath (.archiveBlob mems), [.downloadArchive name])
      else (.error .checksumMismatch, fs, [.downloadArchive name])

/-- Modelled from the spec: `download_and_extract_archives(dir, base_url,
archive_names, checksums, remove_archive) -> list of extracted member paths`:
for each archive, ensure it is local (download if absent, verifying the
checksum), extract its member files into `dir`, optionally delete the archive,
and return the extracted member paths in member order. -/
def download_and_extract_archives (w : World) (fs : FS) (dir : String)
    (names : List String) (md5s : List (String × String)) (removeArchive : Bool) :
    Except PyErr (List String) × FS × List Event :=
  match names with
  | [] => (.ok [], fs, [])
  | name :: rest =>
    let apath := pathJoin dir name
    match ensure_archive w fs dir name with
    | (.error e, fs1, evs1) => (.error e, fs1, evs1)
    | (.ok _, fs1, evs1) =>
      match fsLookup fs1 apath with
      | some (.archiveBlob mems) =>
        let fs2 := mems.foldl (fun acc mb => fsWrite acc (pathJoin dir mb.1) (.raw mb.2)) fs1
        let fs3 := if removeArchive then fs2.filter (fun kv => decide (kv.1 ≠ apath)) else fs2
        match download_and_extract_archives w fs3 dir rest md5s removeArchive with
        | (.ok ps, fs4, evs2) =>
          (.ok (mems.map (fun mb => pathJoin dir mb.1) ++ ps), fs4, evs1 ++ evs2)
        | (.error e, fs4, evs2) => (.error e, fs4, evs1 ++ evs2)
      | some _ => (.error .parseError, fs1, evs1)
      | none => (.error .ioError, fs1, evs1)

/-- Modelled from the spec: `parse_ts_data(path) -> (time_seq,
measurement_seq, error_seq)`; reads the file and parses it with the external
time-series parser. -/
def parse_ts_data (w : World) (fs : FS) (path : String) :
    Except PyErr (List Int × List Int × List Int) :=
  match fsLookup fs path with
  | some (.raw b) => w.parseTS b
  | some _ => .error .parseError
  | none => .error .ioError

/-- The `for fname in ts_paths` accumulation loop of `download_asas_training`:
one (time, measurement, error) triple per member path, in stable order. -/
def parse_ts_loop (w : World) (fs : FS) (ps : List String) :
    Except PyErr (List (List Int) × List (List Int) × List (List Int)) :=
  match ps with
  | [] => .ok ([], [], [])
  | p :: rest =>
    match parse_ts_data w fs p with
    | .error err => .error err
    | .ok tme =>
      match parse_ts_loop w fs rest with
      | .error err => .error err
      | .ok rec3 => .ok (tme.1 :: rec3.1, tme.2.1 :: rec3.2.1, tme.2.2 :: rec3.2.2)

/-- `pd.read_csv` modelled as an external parser applied to the file bytes. -/
def read_csv (w : World) (fs : FS) (path : String) : Except PyErr (List (List String)) :=
  match fsLookup fs path with
  | some (.raw b) => w.csvParse b
  | some _ => .error .valueError
  | none => .error .ioError

/-- Modelled from the spec: `remove_files(paths)` deletes the given files. -/
def remove_files (fs : FS) (ps : List String) : FS :=
  fs.filter (fun kv => ! ps.contains kv.1)

/-- Modelled from the spec: `parse_headerfile(header_path, member_paths) ->
(classes_map, metadata_map)`: reads the header file and produces the classes
and metadata maps, keyed exactly by the object identifiers derived from the
member filenames, in member order. -/
def parse_headerfile (w : World) (fs : FS) (header_path : String)
    (ts_paths : List String) :
    Except PyErr (List (String × String) × List (String × String)) :=
  match fsLookup fs header_path with
  | none => .error .ioError
  | some (.raw b) =>
    match w.headerParseErr b with
    | some e => .error e
    | none =>
      .ok (ts_paths.map (fun p => (basename p, w.classOf (basename p))),
           ts_paths.map (fun p => (basename p, w.metaOf (basename p))))
  | some _ => .error .parseError

/-- `joblib.load`: a missing file raises `IOError`; content that is not a
pickled dataset raises `ValueError` (unreadable/incompatible), except that
`badPickle e` content raises its stored class `e`. -/
def joblib_load (fs : FS) (p : String) : Except PyErr Dataset :=
  match fsLookup fs p with
  | none => .error .ioError
  | some (.pickled d) => .ok d
  | some (.badPickle e) => .error e
  | some _ => .error .valueError

/-- `joblib.dump(data, cache_path, compress=3)`: overwrite the cache path
with the pickled dataset. -/
def joblib_dump (fs : FS) (d : Dataset) (p : String) : FS :=
  fsWrite fs p (.pickled d)

/-- The tail of `download_asas_training` from `util.remove_files` on, with
the two locals bound just before it — `header` (the `pd.read_csv` value) and
`extract_dir` — passed in as parameters; neither is used by this tail, which
mirrors the source, where both locals are dead. -/
def download_finish (w : World) (fs2 : FS) (data_dir header_path : String)
    (ts_paths : List String)
    (times measurements errors : List (List Int))
    (header : List (List String)) (extract_dir : String)
    (evs : List Event) : Except PyErr Dataset × FS × List Event :=
  let fs3 := remove_files fs2 ts_paths
  let evs1 := evs ++ [.removeFiles ts_paths, .parseHeader header_path ts_paths]
  match parse_headerfile w fs3 header_path ts_paths with
  | .error e => (.error e, fs3, evs1)
  | .ok cm =>
    let archive_path := pathJoin data_dir ARCHIVE_NAME
    let cache_path := pathJoin data_dir CACHE_NAME
    let data : Dataset :=
      { times := times, measurements := measurements, errors := errors,
        classes := cm.1, metadata := cm.2,
        archive := archive_path, header := header_path }
    (.ok data, joblib_dump fs3 data cache_path, evs1 ++ [.dumpCache cache_path])

/-- `download_asas_training(data_dir)`: download the header file and the
archive, extract and parse the members, read the header CSV, delete the
extracted members, parse the header file, cache and return the dataset. -/
def download_asas_training (w : World) (fs : FS) (data_dir : String) :
    Except PyErr Dataset × FS × List Event :=
  match download_file w fs data_dir BASE_URL HEADER_FILE with
  | (.error e, fs1, evs1) => (.error e, fs1, evs1)
  | (.ok header_path, fs1, evs1) =>
    match download_and_extract_archives w fs1 data_dir [ARCHIVE_NAME] MD5SUMS false with
    | (.error e, fs2, evs2) => (.error e, fs2, evs1 ++ evs2)
    | (.ok ts_paths, fs2, evs2) =>
      let evs3 := evs1 ++ evs2 ++ ts_paths.map Event.parseTS
      match parse_ts_loop w fs2 ts_paths with
      | .error e => (.error e, fs2, evs3)
      | .ok tme =>
        match read_csv w fs2 header_path with
        | .error e => (.error e, fs2, evs3 ++ [.readCSV header_path])
        | .ok header =>
          download_finish w fs2 data_dir header_path ts_paths tme.1 tme.2.1 tme.2.2
            header (pathJoin data_dir (basename ARCHIVE_NAME))
            (evs3 ++ [.readCSV header_path])

/-- The `data_dir` default of `fetch_asas_training`. -/
def resolve_data_dir (w : World) (arg : Option String) : String :=
  match arg with
  | none => pathJoin w.dataPath "datasets/asas_training"
  | some d => d

/-- `fetch_asas_training(data_dir=None)`: resolve the directory, try
`joblib.load` on the fixed cache path, fall back to the full download on
`ValueError` or `IOError`, and let any other exception propagate. -/
def fetch_asas_training (w : World) (fs : FS) (arg : Option String) :
    Except PyErr Dataset × FS × List Event :=
  let data_dir := resolve_data_dir w arg
  let cache_path := pathJoin data_dir CACHE_NAME
  match joblib_load fs cache_path with
  | .ok data => (.ok data, fs, [.loadCache cache_path])
  | .error e =>
    if e = .valueError ∨ e = .ioError then
      match download_asas_training w fs data_dir with
      | (r, fs1, evs) => (r, fs1, .loadCache cache_path :: evs)
    else (.error e, fs, [.loadCache cache_path])

/-! ### Basic lemmas about the filesystem model -/

theorem fsLookup_fsWrite (fs : FS) (p q : String) (d : FileData) :
    fsLookup (fsWrite fs p d) q = if p = q then some d else fsLookup fs q := rfl

theorem pathJoin_right_inj {a b c : String} (h : pathJoin a b = pathJoin a c) : b = c := by
  unfold pathJoin at h
  have h2 := congrArg String.data h
  simp [String.data_append] at h2
  exact String.ext h2

theorem fsLookup_remove_files (fs : FS) (ps : List String) (p : String) :
    fsLookup (remove_files fs ps) p = if p ∈ ps then none else fsLookup fs p := by
  induction fs with
  | nil => simp [remove_files, fsLookup]
  | cons kv rest ih =>
    obtain ⟨q, d⟩ := kv
    by_cases hcq : q ∈ ps
    · rw [show remove_files ((q, d) :: rest) ps = remove_files rest ps by
        simp [remove_files, List.filter_cons, hcq]]
      rw [ih]
      by_cases hqp : q = p
      · subst hqp; simp [fsLookup, hcq]
      · simp [fsLookup, hqp]
    · rw [show remove_files ((q, d) :: rest) ps = (q, d) :: remove_files rest ps by
        simp [remove_files, List.filter_cons, hcq]]
      by_cases hqp : q = p
      · subst hqp; simp [fsLookup, hcq]
      · simp [fsLookup, hqp, ih]

theorem fsLookup_extract_foldl_not_mem (dir : String) (l : List (String × List Nat))
    (fs : FS) (p : String) (h : ∀ mb ∈ l, pathJoin dir mb.1 ≠ p) :
    fsLookup (l.foldl (fun acc mb => fsWrite acc (pathJoin dir mb.1) (.raw mb.2)) fs) p
      = fsLookup fs p := by
  induction l generalizing fs with
  | nil => rfl
  | cons mb rest ih =>
    simp only [List.foldl_cons]
    rw [ih _ (fun x hx => h x (List.mem_cons_of_mem _ hx))]
    simp [fsWrite, fsLookup, h mb (List.mem_cons_self _ _)]

theorem fsLookup_extract_foldl_mem (dir : String) (l : List (String × List Nat))
    (fs : FS) (p : String) (h : ∃ mb ∈ l, pathJoin dir mb.1 = p) :
    ∃ b, fsLookup (l.foldl (fun acc mb => fsWrite acc (pathJoin dir mb.1) (.raw mb.2)) fs) p
      = some (.raw b) := by
  induction l generalizing fs with
  | nil => simp at h
  | cons mb rest ih =>
    simp only [List.foldl_cons]
    by_cases hrest : ∃ x ∈ rest, pathJoin dir x.1 = p
    · exact ih _ hrest
    · have hmb : pathJoin dir mb.1 = p := by
        rcases h with ⟨x, hx, hpx⟩
        rcases List.mem_cons.1 hx with h1 | h2
        · rw [← h1]; exact hpx
        · exact absurd ⟨x, h2, hpx⟩ hrest
      refine ⟨mb.2, ?_⟩
      rw [fsLookup_extract_foldl_not_mem dir rest _ p
        (fun x hx hpx => hrest ⟨x, hx, hpx⟩)]
      simp [fsWrite, fsLookup, hmb]

theorem parse_ts_loop_length {w : World} {fs : FS} {ps : List String}
    {r : List (List Int) × List (List Int) × List (List Int)}
    (h : parse_ts_loop w fs ps = .ok r) :
    r.1.length = ps.length ∧ r.2.1.length = ps.length ∧ r.2.2.length = ps.length := by
  induction ps generalizing r with
  | nil =>
    simp [parse_ts_loop] at h
    simp [← h]
  | cons p rest ih =>
    unfold parse_ts_loop at h
    cases hp : parse_ts_data w fs p with
    | error e => rw [hp] at h; simp at h
    | ok tme =>
      rw [hp] at h
      cases hr : parse_ts_loop w fs rest with
      | error e => rw [hr] at h; simp at h
      | ok rec3 =>
        rw [hr] at h
        obtain ⟨l1, l2, l3⟩ := ih hr
        simp at h
        simp [← h, l1, l2, l3]

theorem parse_ts_loop_get {w : World} {fs : FS} {ps : List String}
    {r : List (List Int) × List (List Int) × List (List Int)}
    (h : parse_ts_loop w fs ps = .ok r) :
    ∀ i (hi : i < ps.length) (hb1 : i < r.1.length) (hb2 : i < r.2.1.length)
      (hb3 : i < r.2.2.length),
      parse_ts_data w fs (ps.get ⟨i, hi⟩) =
        .ok (r.1.get ⟨i, hb1⟩, r.2.1.get ⟨i, hb2⟩, r.2.2.get ⟨i, hb3⟩) := by
  obtain ⟨ts, ms, es⟩ := r
  induction ps generalizing ts ms es with
  | nil => intro i hi; simp at hi
  | cons p rest ih =>
    intro i hi hb1 hb2 hb3
    unfold parse_ts_loop at h
    cases hpd : parse_ts_data w fs p with
    | error e => rw [hpd] at h; simp at h
    | ok tme =>
      rw [hpd] at h
      cases hr : parse_ts_loop w fs rest with
      | error e => rw [hr] at h; simp at h
      | ok rec3 =>
        rw [hr] at h
        simp at h
        obtain ⟨h1, h2, h3⟩ := h
        subst h1
        subst h2
        subst h3
        cases i with
        | zero =>
          simp only [List.get]
          rw [hpd]
        | succ n =>
          exact ih rec3.1 rec3.2.1 rec3.2.2 hr n
            (by simp only [List.length_cons] at hi; exact Nat.lt_of_succ_lt_succ hi)
            (by simp only [List.length_cons] at hb1; exact Nat.lt_of_succ_lt_succ hb1)
            (by simp only [List.length_cons] at hb2; exact Nat.lt_of_succ_lt_succ hb2)
            (by simp only [List.length_cons] at hb3; exact Nat.lt_of_succ_lt_succ hb3)

theorem fsLookup_extract_foldl_get (dir : String) (l : List (String × List Nat))
    (fs : FS) (hnd : (l.map Prod.fst).Nodup) :
    ∀ i (hi : i < l.length),
      fsLookup (l.foldl (fun acc mb => fsWrite acc (pathJoin dir mb.1) (.raw mb.2)) fs)
        (pathJoin dir (l.get ⟨i, hi⟩).1) = some (.raw (l.get ⟨i, hi⟩).2) := by
  induction l generalizing fs with
  | nil => intro i hi; simp at hi
  | cons mb rest ih =>
    intro i hi
    simp only [List.foldl_cons]
    have hsplit : mb.1 ∉ rest.map Prod.fst ∧ (rest.map Prod.fst).Nodup :=
      List.nodup_cons.1 (by rw [List.map_cons] at hnd; exact hnd)
    have hnd1 := hsplit.1
    have hnd2 := hsplit.2
    cases i with
    | zero =>
      have hnot : ∀ x ∈ rest, pathJoin dir x.1 ≠ pathJoin dir mb.1 := by
        intro x hx he
        exact hnd1 (List.mem_map.2 ⟨x, hx, pathJoin_right_inj he⟩)
      simp only [List.get]
      rw [fsLookup_extract_foldl_not_mem dir rest _ _ hnot]
      simp [fsWrite, fsLookup]
    | succ n =>
      exact ih _ hnd2 n
        (by simp only [List.length_cons] at hi; exact Nat.lt_of_succ_lt_succ hi)

/-! ### Characterization of a successful download -/


theorem download_ok_spec (w : World) (fs : FS) (dd : String) (d : Dataset)
    (hb : List Nat) (mems : List (String × List Nat))
    (hok : (download_asas_training w fs dd).1 = .ok d)
    (hh : fsLookup fs (pathJoin dd HEADER_FILE) = some (.raw hb) ∨
          (fsLookup fs (pathJoin dd HEADER_FILE) = none ∧
             w.remoteFile HEADER_FILE = some hb))
    (ha : fsLookup fs (pathJoin dd ARCHIVE_NAME) = some (.archiveBlob mems) ∨
          (fsLookup fs (pathJoin dd ARCHIVE_NAME) = none ∧
             w.archiveContents ARCHIVE_NAME = some mems)) :
    d.archive = pathJoin dd ARCHIVE_NAME ∧
    d.header = pathJoin dd HEADER_FILE ∧
    d.classes = (mems.map (fun mb => pathJoin dd mb.1)).map
        (fun p => (basename p, w.classOf (basename p))) ∧
    d.metadata = (mems.map (fun mb => pathJoin dd mb.1)).map
        (fun p => (basename p, w.metaOf (basename p))) ∧
    d.times.length = mems.length ∧
    d.measurements.length = mems.length ∧
    d.errors.length = mems.length ∧
    ∃ fsA,
      fsLookup fsA (pathJoin dd ARCHIVE_NAME) = some (.archiveBlob mems) ∧
      fsLookup fsA (pathJoin dd HEADER_FILE) = some (.raw hb) ∧
      parse_ts_loop w
        (mems.foldl (fun acc mb => fsWrite acc (pathJoin dd mb.1) (.raw mb.2)) fsA)
        (mems.map (fun mb => pathJoin dd mb.1)) =
        .ok (d.times, d.measurements, d.errors) ∧
      (download_asas_training w fs dd).2.1 =
        joblib_dump
          (remove_files
            (mems.foldl (fun acc mb => fsWrite acc (pathJoin dd mb.1) (.raw mb.2)) fsA)
            (mems.map (fun mb => pathJoin dd mb.1)))
          d (pathJoin dd CACHE_NAME) := by
  have hne : pathJoin dd HEADER_FILE ≠ pathJoin dd ARCHIVE_NAME := fun he =>
    absurd (pathJoin_right_inj he) (by decide)
  obtain ⟨fs1, evs1, hdf, h1hp, h1ap⟩ :
      ∃ fs1 evs1,
        download_file w fs dd BASE_URL HEADER_FILE =
          (.ok (pathJoin dd HEADER_FILE), fs1, evs1) ∧
        fsLookup fs1 (pathJoin dd HEADER_FILE) = some (.raw hb) ∧
        fsLookup fs1 (pathJoin dd ARCHIVE_NAME) = fsLookup fs (pathJoin dd ARCHIVE_NAME) := by
    rcases hh with h | ⟨h, hr⟩
    · exact ⟨fs, [], by simp [download_file, h], h, rfl⟩
    · refine ⟨fsWrite fs (pathJoin dd HEADER_FILE) (.raw hb), [.downloadFile HEADER_FILE],
        by simp [download_file, h, hr], ?_, ?_⟩
      · simp [fsLookup_fsWrite]
      · rw [fsLookup_fsWrite, if_neg hne]
  have hcs : fsLookup fs1 (pathJoin dd ARCHIVE_NAME) = none →
      w.archiveContents ARCHIVE_NAME = some mems →
      w.archiveChecksumOk ARCHIVE_NAME = true := by
    intro h1 h2
    by_contra hcsf
    rw [Bool.not_eq_true] at hcsf
    simp [download_asas_training, hdf, download_and_extract_archives, ensure_archive,
      h1, h2, hcsf] at hok
  obtain ⟨fsA, evs2, hdae, hAap, hAhp⟩ :
      ∃ fsA evs2,
        download_and_extract_archives w fs1 dd [ARCHIVE_NAME] MD5SUMS false =
          (.ok (mems.map (fun mb => pathJoin dd mb.1)),
           mems.foldl (fun acc mb => fsWrite acc (pathJoin dd mb.1) (.raw mb.2)) fsA,
           evs2) ∧
        fsLookup fsA (pathJoin dd ARCHIVE_NAME) = some (.archiveBlob mems) ∧
        fsLookup fsA (pathJoin dd HEADER_FILE) = some (.raw hb) := by
    rcases ha with h | ⟨h, hc⟩
    · have h1 : fsLookup fs1 (pathJoin dd ARCHIVE_NAME) = some (.archiveBlob mems) :=
        h1ap.trans h
      refine ⟨fs1, [], ?_, h1, h1hp⟩
      simp [download_and_extract_archives, ensure_archive, h1]
    · have h1 : fsLookup fs1 (pathJoin dd ARCHIVE_NAME) = none := h1ap.trans h
      have hcst := hcs h1 hc
      refine ⟨fsWrite fs1 (pathJoin dd ARCHIVE_NAME) (.archiveBlob mems),
        [.downloadArchive ARCHIVE_NAME], ?_, ?_, ?_⟩
      · simp [download_and_extract_archives, ensure_archive, h1, hc, hcst, fsLookup_fsWrite]
      · simp [fsLookup_fsWrite]
      · rw [fsLookup_fsWrite, if_neg (fun he => hne he.symm)]
        exact h1hp
  cases hpl : parse_ts_loop w
      (mems.foldl (fun acc mb => fsWrite acc (pathJoin dd mb.1) (.raw mb.2)) fsA)
      (mems.map (fun mb => pathJoin dd mb.1)) with
  | error e => simp [download_asas_training, hdf, hdae, hpl] at hok
  | ok tme =>
    cases hcsv : read_csv w
        (mems.foldl (fun acc mb => fsWrite acc (pathJoin dd mb.1) (.raw mb.2)) fsA)
        (pathJoin dd HEADER_FILE) with
    | error e => simp [download_asas_training, hdf, hdae, hpl, hcsv] at hok
    | ok hdr =>
      cases hl3 : fsLookup
          (remove_files
            (mems.foldl (fun acc mb => fsWrite acc (pathJoin dd mb.1) (.raw mb.2)) fsA)
            (mems.map (fun mb => pathJoin dd mb.1)))
          (pathJoin dd HEADER_FILE) with
      | none =>
        simp [download_asas_training, hdf, hdae, hpl, hcsv, download_finish,
          parse_headerfile, hl3] at hok
      | some fd =>
        cases fd with
        | raw b3 =>
          cases hpe : w.headerParseErr b3 with
          | some e =>
            simp [download_asas_training, hdf, hdae, hpl, hcsv, download_finish,
              parse_headerfile, hl3, hpe] at hok
          | none =>
            simp only [download_asas_training, hdf, hdae, hpl, hcsv, download_finish,
              parse_headerfile, hl3, hpe] at hok ⊢
            simp at hok
            obtain ⟨hlen1, hlen2, hlen3⟩ := parse_ts_loop_length hpl
            refine ⟨?_, ?_, ?_, ?_, ?_, ?_, ?_, fsA, hAap, hAhp, ?_, ?_⟩ <;>
              simp [← hok, hpl, hlen1, hlen2, hlen3]
        | archiveBlob mems2 =>
          simp [download_asas_training, hdf, hdae, hpl, hcsv, download_finish,
            parse_headerfile, hl3] at hok
        | pickled d2 =>
          simp [download_asas_training, hdf, hdae, hpl, hcsv, download_finish,
            parse_headerfile, hl3] at hok
        | badPickle e2 =>
          simp [download_asas_training, hdf, hdae, hpl, hcsv, download_finish,
            parse_headerfile, hl3] at hok

/-! ### The cache is written on every successful download -/

theorem download_cache_write (w : World) (fs : FS) (dd : String) (d : Dataset)
    (hok : (download_asas_training w fs dd).1 = .ok d) :
    fsLookup (download_asas_training w fs dd).2.1 (pathJoin dd CACHE_NAME) =
      some (.pickled d) := by
  rcases hdf : download_file w fs dd BASE_URL HEADER_FILE with ⟨r1, fs1, evs1⟩
  cases r1 with
  | error e => simp [download_asas_training, hdf] at hok
  | ok hp =>
    rcases hdae : download_and_extract_archives w fs1 dd [ARCHIVE_NAME] MD5SUMS false
      with ⟨r2, fs2, evs2⟩
    cases r2 with
    | error e => simp [download_asas_training, hdf, hdae] at hok
    | ok tsp =>
      cases hpl : parse_ts_loop w fs2 tsp with
      | error e => simp [download_asas_training, hdf, hdae, hpl] at hok
      | ok tme =>
        cases hcsv : read_csv w fs2 hp with
        | error e => simp [download_asas_training, hdf, hdae, hpl, hcsv] at hok
        | ok hdr =>
          cases hph : parse_headerfile w (remove_files fs2 tsp) hp tsp with
          | error e =>
            simp [download_asas_training, hdf, hdae, hpl, hcsv, download_finish, hph] at hok
          | ok cm =>
            simp only [download_asas_training, hdf, hdae, hpl, hcsv, download_finish,
              hph] at hok ⊢
            simp at hok
            simp [joblib_dump, fsLookup_fsWrite, ← hok]

/-! ### Concrete worlds, filesystems and datasets used by the witnesses -/

/-- An environment in which every external step succeeds. -/
def W0 : World :=
  { dataPath := "data"
    remoteFile := fun _ => some [1]
    archiveContents := fun _ => some [("a.dat", [2]), ("b.dat", [3])]
    archiveChecksumOk := fun _ => true
    parseTS := fun _ => .ok ([0], [1], [2])
    csvParse := fun _ => .ok [["f"]]
    headerParseErr := fun _ => none
    classOf := fun _ => "c"
    metaOf := fun _ => "m" }

/-- An arbitrary valid dataset, used as cache content. -/
def D0 : Dataset :=
  { times := [[5]], measurements := [[6]], errors := [[7]],
    classes := [("x.dat", "Mira")], metadata := [("x.dat", "0.5")],
    archive := "d/asas_training_set.tar.gz",
    header := "d/asas_training_set_classes_with_metadata.dat" }

/-- The dataset `download_asas_training` builds in `W0` from directory "d". -/
def DL0 : Dataset :=
  { times := [[0], [0]], measurements := [[1], [1]], errors := [[2], [2]],
    classes := [("a.dat", "c"), ("b.dat", "c")],
    metadata := [("a.dat", "m"), ("b.dat", "m")],
    archive := "d/asas_training_set.tar.gz",
    header := "d/asas_training_set_classes_with_metadata.dat" }

/-! ### Claims about the cache loader `fetch_asas_training` -/

/-- C2: if the storage directory holds a valid serialized `Dataset` at the
fixed cache path, `fetch_asas_training` returns exactly that deserialized
dataset, without validating its contents, performing no network access and
never invoking `download_asas_training` (its trace is the single cache load). -/
theorem C2_cache_hit_returns_dataset (w : World) (fs : FS) (dir : String) (d : Dataset)
    (h : fsLookup fs (pathJoin dir CACHE_NAME) = some (.pickled d)) :
    fetch_asas_training w fs (some dir) =
      (.ok d, fs, [.loadCache (pathJoin dir CACHE_NAME)]) ∧
    ∀ ev ∈ (fetch_asas_training w fs (some dir)).2.2, ev.isNetwork = false := by
  have hfe : fetch_asas_training w fs (some dir) =
      (.ok d, fs, [.loadCache (pathJoin dir CACHE_NAME)]) := by
    simp [fetch_asas_training, resolve_data_dir, joblib_load, h]
  refine ⟨hfe, ?_⟩
  rw [hfe]
  simp [Event.isNetwork]

theorem C2_witness :
    fetch_asas_training W0 [("d/asas_training_set.pkl", .pickled D0)] (some "d") =
      (.ok D0, [("d/asas_training_set.pkl", .pickled D0)],
       [.loadCache (pathJoin "d" CACHE_NAME)]) :=
  (C2_cache_hit_returns_dataset W0 [("d/asas_training_set.pkl", .pickled D0)] "d" D0
    (by decide)).1

/-- C10: on a successful cache load, `fetch_asas_training` performs no
filesystem write or delete and no network access: the filesystem is returned
unchanged (every file under the storage directory included) and no event of
its trace writes, deletes or touches the network. -/
theorem C10_cache_hit_frame (w : World) (fs : FS) (dir : String) (d : Dataset)
    (h : fsLookup fs (pathJoin dir CACHE_NAME) = some (.pickled d)) :
    (fetch_asas_training w fs (some dir)).2.1 = fs ∧
    (∀ p, fsLookup (fetch_asas_training w fs (some dir)).2.1 p = fsLookup fs p) ∧
    ∀ ev ∈ (fetch_asas_training w fs (some dir)).2.2,
      ev.isWrite = false ∧ ev.isNetwork = false := by
  have hfe : fetch_asas_training w fs (some dir) =
      (.ok d, fs, [.loadCache (pathJoin dir CACHE_NAME)]) := by
    simp [fetch_asas_training, resolve_data_dir, joblib_load, h]
  rw [hfe]
  exact ⟨rfl, fun p => rfl, by simp [Event.isWrite, Event.isNetwork]⟩

theorem C10_witness :
    (fetch_asas_training W0 [("e/asas_training_set.pkl", .pickled D0)] (some "e")).2.1 =
      [("e/asas_training_set.pkl", .pickled D0)] :=
  (C10_cache_hit_frame W0 [("e/asas_training_set.pkl", .pickled D0)] "e" D0
    (by decide)).1

/-- C8: called without a directory argument, `fetch_asas_training` resolves
the storage directory to `datasets/asas_training` under the configured data
path and uses the fixed cache name under it; a supplied directory is used
unchanged. -/
theorem C8_default_storage_dir (w : World) (fs : FS) :
    fetch_asas_training w fs none =
      fetch_asas_training w fs (some (pathJoin w.dataPath "datasets/asas_training")) ∧
    resolve_data_dir w none = pathJoin w.dataPath "datasets/asas_training" ∧
    (∀ d : String, resolve_data_dir w (some d) = d) ∧
    ∀ arg, (fetch_asas_training w fs arg).2.2.head? =
      some (.loadCache (pathJoin (resolve_data_dir w arg) CACHE_NAME)) := by
  refine ⟨rfl, rfl, fun d => rfl, fun arg => ?_⟩
  simp only [fetch_asas_training]
  cases hjl : joblib_load fs (pathJoin (resolve_data_dir w arg) CACHE_NAME) with
  | ok data => simp [hjl]
  | error e =>
    simp only [hjl]
    by_cases hcls : e = PyErr.valueError ∨ e = PyErr.ioError
    · rw [if_pos hcls]
      rcases hdl : download_asas_training w fs (resolve_data_dir w arg) with ⟨r, fs1, evs⟩
      simp [hdl]
    · rw [if_neg hcls]
      rfl

/-- C1: `fetch_asas_training` first attempts the cache load; exactly when that
load fails with `ValueError` or `IOError` does it fall back to
`download_asas_training`, returning its result without raising; any other
failure class propagates unchanged to the caller; a successful load
short-circuits the fetcher. -/
theorem C1_fetch_error_dispatch (w : World) (fs : FS) (dir : String) :
    (∀ e, joblib_load fs (pathJoin dir CACHE_NAME) = .error e →
      ((e = .valueError ∨ e = .ioError) →
        fetch_asas_training w fs (some dir) =
          ((download_asas_training w fs dir).1,
           (download_asas_training w fs dir).2.1,
           .loadCache (pathJoin dir CACHE_NAME) ::
             (download_asas_training w fs dir).2.2)) ∧
      (¬(e = .valueError ∨ e = .ioError) →
        fetch_asas_training w fs (some dir) =
          (.error e, fs, [.loadCache (pathJoin dir CACHE_NAME)]))) ∧
    (∀ d, joblib_load fs (pathJoin dir CACHE_NAME) = .ok d →
      fetch_asas_training w fs (some dir) =
        (.ok d, fs, [.loadCache (pathJoin dir CACHE_NAME)])) := by
  constructor
  · intro e he
    constructor
    · intro hcls
      simp only [fetch_asas_training, resolve_data_dir, he]
      rw [if_pos hcls]
    · intro hcls
      simp only [fetch_asas_training, resolve_data_dir, he]
      rw [if_neg hcls]
  · intro d hd
    simp [fetch_asas_training, resolve_data_dir, hd]

theorem C1_witness :
    fetch_asas_training W0 [("d/asas_training_set.pkl", .raw [9])] (some "d") =
      ((download_asas_training W0 [("d/asas_training_set.pkl", .raw [9])] "d").1,
       (download_asas_training W0 [("d/asas_training_set.pkl", .raw [9])] "d").2.1,
       .loadCache (pathJoin "d" CACHE_NAME) ::
         (download_asas_training W0 [("d/asas_training_set.pkl", .raw [9])] "d").2.2) ∧
    fetch_asas_training W0 [("e/asas_training_set.pkl", .badPickle .otherError)] (some "e") =
      (.error .otherError, [("e/asas_training_set.pkl", .badPickle .otherError)],
       [.loadCache (pathJoin "e" CACHE_NAME)]) :=
  ⟨((C1_fetch_error_dispatch W0 [("d/asas_training_set.pkl", .raw [9])] "d").1
      .valueError (by decide)).1 (Or.inl rfl),
   ((C1_fetch_error_dispatch W0 [("e/asas_training_set.pkl", .badPickle .otherError)] "e").1
      .otherError (by decide)).2 (by decide)⟩

/-- C4: with no cache file at the fixed cache path, `fetch_asas_training`
triggers the full download; when the download succeeds, the cache file
afterwards holds the serialized returned dataset and deserializing it again
yields that same dataset. -/
theorem C4_cache_rebuild (w : World) (fs : FS) (dir : String)
    (h : fsLookup fs (pathJoin dir CACHE_NAME) = none) :
    fetch_asas_training w fs (some dir) =
      ((download_asas_training w fs dir).1,
       (download_asas_training w fs dir).2.1,
       .loadCache (pathJoin dir CACHE_NAME) ::
         (download_asas_training w fs dir).2.2) ∧
    ∀ d, (download_asas_training w fs dir).1 = .ok d →
      fsLookup (fetch_asas_training w fs (some dir)).2.1 (pathJoin dir CACHE_NAME) =
        some (.pickled d) ∧
      joblib_load (fetch_asas_training w fs (some dir)).2.1 (pathJoin dir CACHE_NAME) =
        .ok d := by
  have hjl : joblib_load fs (pathJoin dir CACHE_NAME) = .error .ioError := by
    simp [joblib_load, h]
  have hfe : fetch_asas_training w fs (some dir) =
      ((download_asas_training w fs dir).1,
       (download_asas_training w fs dir).2.1,
       .loadCache (pathJoin dir CACHE_NAME) ::
         (download_asas_training w fs dir).2.2) := by
    simp only [fetch_asas_training, resolve_data_dir, hjl]
    rw [if_pos (Or.inr trivial)]
  refine ⟨hfe, fun d hd => ?_⟩
  have hcw := download_cache_write w fs dir d hd
  rw [hfe]
  exact ⟨hcw, by simp [joblib_load, hcw]⟩

theorem C4_witness :
    joblib_load (fetch_asas_training W0 [] (some "d")).2.1 (pathJoin "d" CACHE_NAME) =
      .ok DL0 :=
  ((C4_cache_rebuild W0 [] "d" (by decide)).2 DL0 (by decide)).2

/-! ### Claims about the fetcher `download_asas_training` -/

/-- C5: on every successful run of the fetcher, `times`, `measurements` and
`errors` have one entry per parsed archive member — all three of length equal
to the number of members — with index `i` in all three derived from the same
member in stable member order, and the `classes`/`metadata` keys are exactly
the object identifiers derived from the member filenames, in that same
order.  (Every successful run satisfies one of the two pinning hypotheses for
some `hb` and `mems`.) -/
theorem C5_parallel_sequences (w : World) (fs : FS) (dd : String) (d : Dataset)
    (hb : List Nat) (mems : List (String × List Nat))
    (hok : (download_asas_training w fs dd).1 = .ok d)
    (hh : fsLookup fs (pathJoin dd HEADER_FILE) = some (.raw hb) ∨
          (fsLookup fs (pathJoin dd HEADER_FILE) = none ∧
             w.remoteFile HEADER_FILE = some hb))
    (ha : fsLookup fs (pathJoin dd ARCHIVE_NAME) = some (.archiveBlob mems) ∨
          (fsLookup fs (pathJoin dd ARCHIVE_NAME) = none ∧
             w.archiveContents ARCHIVE_NAME = some mems)) :
    d.times.length = mems.length ∧
    d.measurements.length = mems.length ∧
    d.errors.length = mems.length ∧
    d.classes.map Prod.fst = (mems.map (fun mb => pathJoin dd mb.1)).map basename ∧
    d.metadata.map Prod.fst = (mems.map (fun mb => pathJoin dd mb.1)).map basename ∧
    (∃ fsMid,
      parse_ts_loop w fsMid (mems.map (fun mb => pathJoin dd mb.1)) =
        .ok (d.times, d.measurements, d.errors) ∧
      ∀ i (hi : i < mems.length) (h1 : i < d.times.length)
        (h2 : i < d.measurements.length) (h3 : i < d.errors.length),
        parse_ts_data w fsMid (pathJoin dd (mems.get ⟨i, hi⟩).1) =
          .ok (d.times.get ⟨i, h1⟩, d.measurements.get ⟨i, h2⟩,
               d.errors.get ⟨i, h3⟩)) ∧
    ((mems.map Prod.fst).Nodup →
      ∀ i (hi : i < mems.length) (h1 : i < d.times.length)
        (h2 : i < d.measurements.length) (h3 : i < d.errors.length),
        w.parseTS (mems.get ⟨i, hi⟩).2 =
          .ok (d.times.get ⟨i, h1⟩, d.measurements.get ⟨i, h2⟩,
               d.errors.get ⟨i, h3⟩)) := by
  obtain ⟨-, -, hcl, hmd, l1, l2, l3, fsA, hAap, hAhp, hploop, -⟩ :=
    download_ok_spec w fs dd d hb mems hok hh ha
  refine ⟨l1, l2, l3, ?_, ?_, ?_, ?_⟩
  · rw [hcl]; simp [List.map_map, Function.comp]
  · rw [hmd]; simp [List.map_map, Function.comp]
  · refine ⟨mems.foldl (fun acc mb => fsWrite acc (pathJoin dd mb.1) (.raw mb.2)) fsA,
      hploop, ?_⟩
    intro i hi h1 h2 h3
    have him : i < (mems.map (fun mb => pathJoin dd mb.1)).length := by simpa using hi
    have hg := parse_ts_loop_get hploop i him h1 h2 h3
    rwa [show (mems.map (fun mb => pathJoin dd mb.1)).get ⟨i, him⟩ =
        pathJoin dd (mems.get ⟨i, hi⟩).1 from by
      simp [List.get_eq_getElem, List.getElem_map]] at hg
  · intro hnd i hi h1 h2 h3
    have him : i < (mems.map (fun mb => pathJoin dd mb.1)).length := by simpa using hi
    have hg := parse_ts_loop_get hploop i him h1 h2 h3
    have hcontent := fsLookup_extract_foldl_get dd mems fsA hnd i hi
    rw [show (mems.map (fun mb => pathJoin dd mb.1)).get ⟨i, him⟩ =
        pathJoin dd (mems.get ⟨i, hi⟩).1 from by
      simp [List.get_eq_getElem, List.getElem_map]] at hg
    unfold parse_ts_data at hg
    rw [hcontent] at hg
    exact hg

theorem C5_witness :
    DL0.times.length = 2 ∧ DL0.measurements.length = 2 ∧ DL0.errors.length = 2 ∧
    DL0.classes.map Prod.fst = ["a.dat", "b.dat"] ∧
    DL0.metadata.map Prod.fst = ["a.dat", "b.dat"] ∧
    W0.parseTS [2] = .ok ([0], [1], [2]) := by
  have h := C5_parallel_sequences W0 [] "d" DL0 [1] [("a.dat", [2]), ("b.dat", [3])]
    (by decide) (Or.inr ⟨rfl, rfl⟩) (Or.inr ⟨rfl, rfl⟩)
  refine ⟨h.1.trans (by decide), h.2.1.trans (by decide), h.2.2.1.trans (by decide),
    h.2.2.2.1.trans (by decide), h.2.2.2.2.1.trans (by decide), ?_⟩
  exact h.2.2.2.2.2.2 (by decide) 0 (by decide) (by decide) (by decide) (by decide)

/-- C6: after every successful completion of the fetcher, none of the
transient extracted member files remain in the storage directory, while the
archive file (the archive is extracted with remove_archive=False) and the
header file do remain. -/
theorem C6_transient_files_removed (w : World) (fs : FS) (dd : String) (d : Dataset)
    (hb : List Nat) (mems : List (String × List Nat))
    (hok : (download_asas_training w fs dd).1 = .ok d)
    (hh : fsLookup fs (pathJoin dd HEADER_FILE) = some (.raw hb) ∨
          (fsLookup fs (pathJoin dd HEADER_FILE) = none ∧
             w.remoteFile HEADER_FILE = some hb))
    (ha : fsLookup fs (pathJoin dd ARCHIVE_NAME) = some (.archiveBlob mems) ∨
          (fsLookup fs (pathJoin dd ARCHIVE_NAME) = none ∧
             w.archiveContents ARCHIVE_NAME = some mems))
    (hnames : ∀ mb ∈ mems, mb.1 ≠ ARCHIVE_NAME ∧ mb.1 ≠ HEADER_FILE ∧ mb.1 ≠ CACHE_NAME) :
    (∀ p ∈ mems.map (fun mb => pathJoin dd mb.1),
        fsLookup (download_asas_training w fs dd).2.1 p = none) ∧
    fsLookup (download_asas_training w fs dd).2.1 (pathJoin dd ARCHIVE_NAME) =
      some (.archiveBlob mems) ∧
    fsLookup (download_asas_training w fs dd).2.1 (pathJoin dd HEADER_FILE) =
      some (.raw hb) := by
  obtain ⟨-, -, -, -, -, -, -, fsA, hAap, hAhp, -, hfin⟩ :=
    download_ok_spec w fs dd d hb mems hok hh ha
  rw [hfin]
  have hCA : CACHE_NAME ≠ ARCHIVE_NAME := by decide
  have hCH : CACHE_NAME ≠ HEADER_FILE := by decide
  have hAH : ARCHIVE_NAME ≠ HEADER_FILE := by decide
  refine ⟨?_, ?_, ?_⟩
  · intro p hp
    obtain ⟨mb, hmb, rfl⟩ := List.mem_map.1 hp
    rw [joblib_dump, fsLookup_fsWrite,
      if_neg (fun he => (hnames mb hmb).2.2 (pathJoin_right_inj he.symm))]
    rw [fsLookup_remove_files, if_pos (List.mem_map.2 ⟨mb, hmb, rfl⟩)]
  · rw [joblib_dump, fsLookup_fsWrite, if_neg (fun he => hCA (pathJoin_right_inj he))]
    rw [fsLookup_remove_files, if_neg (fun hmem => ?_)]
    · rw [fsLookup_extract_foldl_not_mem dd mems fsA _
        (fun mb hmb he => (hnames mb hmb).1 (pathJoin_right_inj he))]
      exact hAap
    · obtain ⟨mb, hmb, he⟩ := List.mem_map.1 hmem
      exact (hnames mb hmb).1 (pathJoin_right_inj he)
  · rw [joblib_dump, fsLookup_fsWrite, if_neg (fun he => hCH (pathJoin_right_inj he))]
    rw [fsLookup_remove_files, if_neg (fun hmem => ?_)]
    · rw [fsLookup_extract_foldl_not_mem dd mems fsA _
        (fun mb hmb he => (hnames mb hmb).2.1 (pathJoin_right_inj he))]
      exact hAhp
    · obtain ⟨mb, hmb, he⟩ := List.mem_map.1 hmem
      exact (hnames mb hmb).2.1 (pathJoin_right_inj he)

theorem C6_witness :
    fsLookup (download_asas_training W0 [] "d").2.1 (pathJoin "d" ARCHIVE_NAME) =
      some (.archiveBlob [("a.dat", [2]), ("b.dat", [3])]) ∧
    fsLookup (download_asas_training W0 [] "d").2.1 (pathJoin "d" HEADER_FILE) =
      some (.raw [1]) ∧
    fsLookup (download_asas_training W0 [] "d").2.1 "d/a.dat" = none ∧
    fsLookup (download_asas_training W0 [] "d").2.1 "d/b.dat" = none := by
  have h := C6_transient_files_removed W0 [] "d" DL0 [1] [("a.dat", [2]), ("b.dat", [3])]
    (by decide) (Or.inr ⟨rfl, rfl⟩) (Or.inr ⟨rfl, rfl⟩) (by decide)
  exact ⟨h.2.1, h.2.2, h.1 "d/a.dat" (by decide), h.1 "d/b.dat" (by decide)⟩

/-- C7: the fetcher performs no retries and catches no errors: whichever step
fails first — the header download, the archive download/extraction, the
checksum verification of the archive download, the per-member time-series
parse, the CSV read of the header, or the header-file parse — its exception
becomes the fetcher's result unchanged, and no (partial) dataset is returned. -/
theorem C7_no_error_handling (w : World) (fs : FS) (dd : String) :
    (∀ e, (download_file w fs dd BASE_URL HEADER_FILE).1 = .error e →
      (download_asas_training w fs dd).1 = .error e) ∧
    (∀ e hp fs1 evs1,
      download_file w fs dd BASE_URL HEADER_FILE = (.ok hp, fs1, evs1) →
      (download_and_extract_archives w fs1 dd [ARCHIVE_NAME] MD5SUMS false).1 =
        .error e →
      (download_asas_training w fs dd).1 = .error e) ∧
    (∀ hp fs1 evs1 mems,
      download_file w fs dd BASE_URL HEADER_FILE = (.ok hp, fs1, evs1) →
      fsLookup fs1 (pathJoin dd ARCHIVE_NAME) = none →
      w.archiveContents ARCHIVE_NAME = some mems →
      w.archiveChecksumOk ARCHIVE_NAME = false →
      (download_asas_training w fs dd).1 = .error .checksumMismatch) ∧
    (∀ e hp fs1 evs1 tsp fs2 evs2,
      download_file w fs dd BASE_URL HEADER_FILE = (.ok hp, fs1, evs1) →
      download_and_extract_archives w fs1 dd [ARCHIVE_NAME] MD5SUMS false =
        (.ok tsp, fs2, evs2) →
      parse_ts_loop w fs2 tsp = .error e →
      (download_asas_training w fs dd).1 = .error e) ∧
    (∀ e hp fs1 evs1 tsp fs2 evs2 tme,
      download_file w fs dd BASE_URL HEADER_FILE = (.ok hp, fs1, evs1) →
      download_and_extract_archives w fs1 dd [ARCHIVE_NAME] MD5SUMS false =
        (.ok tsp, fs2, evs2) →
      parse_ts_loop w fs2 tsp = .ok tme →
      read_csv w fs2 hp = .error e →
      (download_asas_training w fs dd).1 = .error e) ∧
    (∀ e hp fs1 evs1 tsp fs2 evs2 tme hdr,
      download_file w fs dd BASE_URL HEADER_FILE = (.ok hp, fs1, evs1) →
      download_and_extract_archives w fs1 dd [ARCHIVE_NAME] MD5SUMS false =
        (.ok tsp, fs2, evs2) →
      parse_ts_loop w fs2 tsp = .ok tme →
      read_csv w fs2 hp = .ok hdr →
      parse_headerfile w (remove_files fs2 tsp) hp tsp = .error e →
      (download_asas_training w fs dd).1 = .error e) := by
  refine ⟨?_, ?_, ?_, ?_, ?_, ?_⟩
  · intro e h1
    rcases hdf : download_file w fs dd BASE_URL HEADER_FILE with ⟨r1, fs1, evs1⟩
    rw [hdf] at h1
    simp at h1
    subst h1
    simp [download_asas_training, hdf]
  · intro e hp fs1 evs1 hdf h2
    rcases hdae : download_and_extract_archives w fs1 dd [ARCHIVE_NAME] MD5SUMS false
      with ⟨r2, fs2, evs2⟩
    rw [hdae] at h2
    simp at h2
    subst h2
    simp [download_asas_training, hdf, hdae]
  · intro hp fs1 evs1 mems hdf h1 h2 h3
    simp [download_asas_training, hdf, download_and_extract_archives, ensure_archive,
      h1, h2, h3]
  · intro e hp fs1 evs1 tsp fs2 evs2 hdf hdae hpl
    simp [download_asas_training, hdf, hdae, hpl]
  · intro e hp fs1 evs1 tsp fs2 evs2 tme hdf hdae hpl hcsv
    simp [download_asas_training, hdf, hdae, hpl, hcsv]
  · intro e hp fs1 evs1 tsp fs2 evs2 tme hdr hdf hdae hpl hcsv hph
    simp [download_asas_training, hdf, hdae, hpl, hcsv, download_finish, hph]

/-- `W0` with a checksum that never verifies. -/
def WchecksumBad : World := { W0 with archiveChecksumOk := fun _ => false }

/-- `W0` with a failing time-series parser (two-member archive). -/
def WtsBad : World := { W0 with parseTS := fun _ => .error .parseError }

/-- `W0` with the remote server unreachable. -/
def Woffline : World := { W0 with remoteFile := fun _ => none }

/-- `W0` with a failing header parser (two-member archive). -/
def WheaderBad : World := { W0 with headerParseErr := fun _ => some .parseError }

theorem C7_witness :
    (download_asas_training Woffline [] "d").1 = .error .networkError ∧
    (download_asas_training WchecksumBad [] "d").1 = .error .checksumMismatch ∧
    (download_asas_training WtsBad [] "d").1 = .error .parseError ∧
    (download_asas_training WheaderBad [] "d").1 = .error .parseError :=
  ⟨(C7_no_error_handling Woffline [] "d").1 .networkError rfl,
   (C7_no_error_handling WchecksumBad [] "d").2.2.1 _ _ _ _ rfl rfl rfl rfl,
   (C7_no_error_handling WtsBad [] "d").2.2.2.1 .parseError _ _ _ _ _ _ rfl rfl rfl,
   (C7_no_error_handling WheaderBad [] "d").2.2.2.2.2 .parseError _ _ _ _ _ _ _ _
     rfl rfl rfl rfl rfl⟩

/-! ### Event ordering in the fetcher trace -/

/-- The first occurrence of `a` in the trace is strictly followed by an
occurrence of `b`. -/
def firstBefore (a b : Event) : List Event → Bool
  | [] => false
  | x :: rest => if x = a then decide (b ∈ rest) else firstBefore a b rest

theorem firstBefore_append_of_not_mem (a b : Event) (l tr : List Event) (h : a ∉ l) :
    firstBefore a b (l ++ tr) = firstBefore a b tr := by
  induction l with
  | nil => rfl
  | cons x rest ih =>
    have hxa : x ≠ a := fun he => h (List.mem_cons.2 (Or.inl he.symm))
    simp only [List.cons_append, firstBefore, if_neg hxa]
    exact ih (fun hm => h (List.mem_cons_of_mem _ hm))

theorem events_download_file (w : World) (fs : FS) (dir b f : String) :
    ∀ ev ∈ (download_file w fs dir b f).2.2, ∃ n, ev = Event.downloadFile n := by
  intro ev hev
  simp only [download_file] at hev
  cases hl : fsLookup fs (pathJoin dir f) with
  | some fd => rw [hl] at hev; simp at hev
  | none =>
    rw [hl] at hev
    cases hr : w.remoteFile f with
    | none => rw [hr] at hev; simp at hev; exact ⟨f, hev⟩
    | some b2 => rw [hr] at hev; simp at hev; exact ⟨f, hev⟩

theorem events_ensure_archive (w : World) (fs : FS) (dir name : String) :
    ∀ ev ∈ (ensure_archive w fs dir name).2.2, ∃ n, ev = Event.downloadArchive n := by
  intro ev hev
  simp only [ensure_archive] at hev
  cases hl : fsLookup fs (pathJoin dir name) with
  | some fd => rw [hl] at hev; simp at hev
  | none =>
    rw [hl] at hev
    cases hr : w.archiveContents name with
    | none => rw [hr] at hev; simp at hev; exact ⟨name, hev⟩
    | some mems =>
      rw [hr] at hev
      cases hc : w.archiveChecksumOk name with
      | true => rw [hc] at hev; simp at hev; exact ⟨name, hev⟩
      | false => rw [hc] at hev; simp at hev; exact ⟨name, hev⟩

theorem events_dae_single (w : World) (fs : FS) (dir name : String)
    (md5s : List (String × String)) (ra : Bool) :
    ∀ ev ∈ (download_and_extract_archives w fs dir [name] md5s ra).2.2,
      ∃ n, ev = Event.downloadArchive n := by
  intro ev hev
  have hens := events_ensure_archive w fs dir name
  simp only [download_and_extract_archives] at hev
  rcases hen : ensure_archive w fs dir name with ⟨r1, fs1, evs1⟩
  rw [hen] at hev hens
  simp only at hens
  cases r1 with
  | error e => simp at hev; exact hens ev hev
  | ok u =>
    dsimp only at hev
    cases hl : fsLookup fs1 (pathJoin dir name) with
    | none => rw [hl] at hev; simp at hev; exact hens ev hev
    | some fd =>
      rw [hl] at hev
      cases fd with
      | archiveBlob mems => simp at hev; exact hens ev hev
      | raw bs => simp at hev; exact hens ev hev
      | pickled d2 => simp at hev; exact hens ev hev
      | badPickle e2 => simp at hev; exact hens ev hev

/-- C3 (amended): whenever the fetcher invokes the external header parser,
the extracted member files have already been deleted beforehand: in every
trace, the removal of the member paths strictly precedes the header-parsing
event carrying those same paths. -/
theorem C3_remove_before_parse_header (w : World) (fs : FS) (dd : String)
    (a : String) (b : List String)
    (hmem : Event.parseHeader a b ∈ (download_asas_training w fs dd).2.2) :
    firstBefore (.removeFiles b) (.parseHeader a b)
      (download_asas_training w fs dd).2.2 = true := by
  have hdfev := events_download_file w fs dd BASE_URL HEADER_FILE
  rcases hdf : download_file w fs dd BASE_URL HEADER_FILE with ⟨r1, fs1, evs1⟩
  rw [hdf] at hdfev
  cases r1 with
  | error e =>
    simp [download_asas_training, hdf] at hmem
    obtain ⟨n, hn⟩ := hdfev _ hmem
    simp at hn
  | ok hp =>
    have hdaev := events_dae_single w fs1 dd ARCHIVE_NAME MD5SUMS false
    rcases hdae : download_and_extract_archives w fs1 dd [ARCHIVE_NAME] MD5SUMS false
      with ⟨r2, fs2, evs2⟩
    rw [hdae] at hdaev
    cases r2 with
    | error e =>
      simp only [download_asas_training, hdf, hdae] at hmem
      simp at hmem
      rcases hmem with h | h
      · obtain ⟨n, hn⟩ := hdfev _ h; simp at hn
      · obtain ⟨n, hn⟩ := hdaev _ h; simp at hn
    | ok tsp =>
      cases hpl : parse_ts_loop w fs2 tsp with
      | error e =>
        simp only [download_asas_training, hdf, hdae, hpl] at hmem
        simp at hmem
        rcases hmem with h | h
        · obtain ⟨n, hn⟩ := hdfev _ h; simp at hn
        · obtain ⟨n, hn⟩ := hdaev _ h; simp at hn
      | ok tme =>
        cases hcsv : read_csv w fs2 hp with
        | error e =>
          simp only [download_asas_training, hdf, hdae, hpl, hcsv] at hmem
          simp at hmem
          rcases hmem with h | h
          · obtain ⟨n, hn⟩ := hdfev _ h; simp at hn
          · obtain ⟨n, hn⟩ := hdaev _ h; simp at hn
        | ok hdr =>
          simp only [download_asas_training, hdf, hdae, hpl, hcsv, download_finish]
            at hmem ⊢
          cases hph : parse_headerfile w (remove_files fs2 tsp) hp tsp with
          | error e =>
            simp only [hph] at hmem ⊢
            simp at hmem
            rcases hmem with h | h | ⟨ha, hb⟩
            · obtain ⟨n, hn⟩ := hdfev _ h; simp at hn
            · obtain ⟨n, hn⟩ := hdaev _ h; simp at hn
            · subst ha; subst hb
              simp only [List.append_assoc, List.cons_append, List.nil_append]
              rw [firstBefore_append_of_not_mem _ _ evs1 _
                (fun hm => by obtain ⟨n, hn⟩ := hdfev _ hm; simp at hn)]
              rw [firstBefore_append_of_not_mem _ _ evs2 _
                (fun hm => by obtain ⟨n, hn⟩ := hdaev _ hm; simp at hn)]
              rw [firstBefore_append_of_not_mem _ _ (List.map Event.parseTS b) _ (by simp)]
              simp [firstBefore]
          | ok cm =>
            simp only [hph] at hmem ⊢
            simp at hmem
            rcases hmem with h | h | ⟨ha, hb⟩
            · obtain ⟨n, hn⟩ := hdfev _ h; simp at hn
            · obtain ⟨n, hn⟩ := hdaev _ h; simp at hn
            · subst ha; subst hb
              simp only [List.append_assoc, List.cons_append, List.nil_append]
              rw [firstBefore_append_of_not_mem _ _ evs1 _
                (fun hm => by obtain ⟨n, hn⟩ := hdfev _ hm; simp at hn)]
              rw [firstBefore_append_of_not_mem _ _ evs2 _
                (fun hm => by obtain ⟨n, hn⟩ := hdaev _ hm; simp at hn)]
              rw [firstBefore_append_of_not_mem _ _ (List.map Event.parseTS b) _ (by simp)]
              simp [firstBefore]

/-- C3 counterexample: in a concrete successful run of the fetcher the
extracted member files are removed strictly before the header parser is
invoked, and the header parser is never invoked before the removal, refuting
the claimed order (parse header first, delete members afterwards). -/
theorem C3_counterexample :
    (download_asas_training W0 [] "d").1 = .ok DL0 ∧
    firstBefore
      (.removeFiles ["d/a.dat", "d/b.dat"])
      (.parseHeader "d/asas_training_set_classes_with_metadata.dat"
        ["d/a.dat", "d/b.dat"])
      (download_asas_training W0 [] "d").2.2 = true ∧
    firstBefore
      (.parseHeader "d/asas_training_set_classes_with_metadata.dat"
        ["d/a.dat", "d/b.dat"])
      (.removeFiles ["d/a.dat", "d/b.dat"])
      (download_asas_training W0 [] "d").2.2 = false := by
  refine ⟨by decide, by decide, by decide⟩

theorem C3_witness :
    Event.parseHeader "d/asas_training_set_classes_with_metadata.dat"
        ["d/a.dat", "d/b.dat"] ∈ (download_asas_training W0 [] "d").2.2 ∧
    firstBefore
      (.removeFiles ["d/a.dat", "d/b.dat"])
      (.parseHeader "d/asas_training_set_classes_with_metadata.dat"
        ["d/a.dat", "d/b.dat"])
      (download_asas_training W0 [] "d").2.2 = true :=
  ⟨by decide,
   C3_remove_before_parse_header W0 [] "d"
     "d/asas_training_set_classes_with_metadata.dat" ["d/a.dat", "d/b.dat"]
     (by decide)⟩

/-- The time-series parse loop ignores the CSV-parser oracle. -/
theorem parse_ts_loop_world_csv (w : World)
    (g : List Nat → Except PyErr (List (List String))) (fs : FS) (ps : List String) :
    parse_ts_loop { w with csvParse := g } fs ps = parse_ts_loop w fs ps := by
  induction ps with
  | nil => rfl
  | cons p rest ih =>
    have hpd : parse_ts_data { w with csvParse := g } fs p = parse_ts_data w fs p := rfl
    simp only [parse_ts_loop, hpd, ih]

/-- C9: the dataset returned by the fetcher does not depend on the value
bound to the dead local `header` (the `pd.read_csv` result) nor on the dead
local `extract_dir`: the tail of the fetcher is constant in those two values,
and two runs that are identical except in the value produced by the CSV read
(both reads succeeding, or failing identically) return equal results, final
filesystems and traces. -/
theorem C9_dead_locals_noninterference :
    (∀ (w : World) (fs2 : FS) (dd hp : String) (tsp : List String)
        (ts ms es : List (List Int)) (h1 h2 : List (List String)) (e1 e2 : String)
        (evs : List Event),
      download_finish w fs2 dd hp tsp ts ms es h1 e1 evs =
        download_finish w fs2 dd hp tsp ts ms es h2 e2 evs) ∧
    (∀ (w : World) (g : List Nat → Except PyErr (List (List String)))
        (fs : FS) (dd : String),
      (∀ bs, w.csvParse bs = g bs ∨
        ((∃ v, w.csvParse bs = .ok v) ∧ (∃ v, g bs = .ok v))) →
      download_asas_training { w with csvParse := g } fs dd =
        download_asas_training w fs dd) := by
  constructor
  · intro w fs2 dd hp tsp ts ms es h1 h2 e1 e2 evs
    rfl
  · intro w g fs dd hcsv
    rcases hdf : download_file w fs dd BASE_URL HEADER_FILE with ⟨r1, fs1, evs1⟩
    have hdf2 : download_file { w with csvParse := g } fs dd BASE_URL HEADER_FILE =
        (r1, fs1, evs1) := hdf
    cases r1 with
    | error e => simp [download_asas_training, hdf, hdf2]
    | ok hp =>
      rcases hdae : download_and_extract_archives w fs1 dd [ARCHIVE_NAME] MD5SUMS false
        with ⟨r2, fs2, evs2⟩
      have hdae2 : download_and_extract_archives { w with csvParse := g } fs1 dd
          [ARCHIVE_NAME] MD5SUMS false = (r2, fs2, evs2) := hdae
      cases r2 with
      | error e => simp [download_asas_training, hdf, hdf2, hdae, hdae2]
      | ok tsp =>
        cases hpl : parse_ts_loop w fs2 tsp with
        | error e =>
          have hpl2 : parse_ts_loop { w with csvParse := g } fs2 tsp = .error e :=
            (parse_ts_loop_world_csv w g fs2 tsp).trans hpl
          simp [download_asas_training, hdf, hdf2, hdae, hdae2, hpl, hpl2]
        | ok tme =>
          have hpl2 : parse_ts_loop { w with csvParse := g } fs2 tsp = .ok tme :=
            (parse_ts_loop_world_csv w g fs2 tsp).trans hpl
          cases hlk : fsLookup fs2 hp with
          | none =>
            simp [download_asas_training, hdf, hdf2, hdae, hdae2, hpl, hpl2,
              read_csv, hlk]
          | some fd =>
            cases fd with
            | raw bs =>
              rcases hcsv bs with heq | ⟨⟨v1, hv1⟩, ⟨v2, hv2⟩⟩
              · simp only [download_asas_training, hdf, hdf2, hdae, hdae2, hpl, hpl2,
                  read_csv, hlk, heq]
                cases hgb : g bs with
                | error e3 => rfl
                | ok v => rfl
              · simp only [download_asas_training, hdf, hdf2, hdae, hdae2, hpl, hpl2,
                  read_csv, hlk, hv1, hv2]
                rfl
            | archiveBlob mems =>
              simp [download_asas_training, hdf, hdf2, hdae, hdae2, hpl, hpl2,
                read_csv, hlk]
            | pickled d2 =>
              simp [download_asas_training, hdf, hdf2, hdae, hdae2, hpl, hpl2,
                read_csv, hlk]
            | badPickle e2 =>
              simp [download_asas_training, hdf, hdf2, hdae, hdae2, hpl, hpl2,
                read_csv, hlk]

theorem C9_witness :
    download_finish W0 [] "d" "h" [] [] [] [] [["a"]] "x" [] =
      download_finish W0 [] "d" "h" [] [] [] [] [["b"]] "y" [] ∧
    download_asas_training { W0 with csvParse := fun _ => .ok [] } [] "d" =
      download_asas_training W0 [] "d" :=
  ⟨C9_dead_locals_noninterference.1 W0 [] "d" "h" [] [] [] [] [["a"]] [["b"]] "x" "y" [],
   C9_dead_locals_noninterference.2 W0 (fun _ => .ok []) [] "d"
     (fun bs => Or.inr ⟨⟨[["f"]], rfl⟩, ⟨[], rfl⟩⟩)⟩

end AsasTraining
